import Mathlib

/-!
# Verification of the OI scanner strategy core

Shallow embedding of the strategy pipeline of the repository:

* `config.py`    — the configured thresholds (`Config`, `defaultConfig`);
* `scanner.py`   — the `StrategyScanner` filter pipeline, continuous scorer,
  cooldown tracker and diagnostic counters (`evalOne`, `calcScore`,
  `evaluateBatch`, `ScannerState`);
* `marketcap.py` — the capitalization cache query `get_low_cap_symbols`;
* `exchanges.py` — the record-assembly step of `ExchangeManager.fetch_all_data`
  (`fetchAssemble`).

Python floats are modelled as exact numbers: the rational comparisons and
arithmetic of the filter pipeline over `ℚ`, the transcendental scoring
formulas (`math.log2`, `math.log10`, `** 0.7`) over `ℝ`.  `time.time()` is
passed explicitly as the `now` argument.  Python's `round(x, 1)` applied to
the factor-score dictionary entries in `scanner.py` is display-only
formatting and is not modelled; the stored factor scores here are the exact
values entering the total (with the `min(25.0, ·)` clamps of lines 200 and
222 of `scanner.py` kept).
-/

namespace OIScanner

/-- The strategy thresholds of `config.py` (lines 21-54).  Field names keep
the source names up to case: `oiMcapThreshold` is `OI_MCAP_RATIO`,
`maxFundingRate` is `MAX_FUNDING_RATE`, `maxPriceSpread` is
`MAX_PRICE_SPREAD`, `minMarketCap` is `MIN_MARKET_CAP`, `maxMarketCap` is
`MAX_MARKET_CAP`, `signalCooldown` is `SIGNAL_COOLDOWN`. -/
structure Config where
  oiMcapThreshold : ℚ
  maxFundingRate : ℚ
  maxPriceSpread : ℚ
  minMarketCap : ℚ
  maxMarketCap : ℚ
  signalCooldown : ℚ
  deriving Repr, DecidableEq

/-- The shipped defaults of `config.py`: `OI_MCAP_RATIO = 25.0`,
`MAX_FUNDING_RATE = -0.01`, `MAX_PRICE_SPREAD = 2.0`,
`MIN_MARKET_CAP = 3000000`, `MAX_MARKET_CAP = 0` (documented there as
"no limit"), `SIGNAL_COOLDOWN = 1800`. -/
def defaultConfig : Config :=
  { oiMcapThreshold := 25
    maxFundingRate := -1/100
    maxPriceSpread := 2
    minMarketCap := 3000000
    maxMarketCap := 0
    signalCooldown := 1800 }

/-- One normalized per-symbol record, the value stored in the map returned by
`ExchangeManager.fetch_all_data` (`exchanges.py` lines 190-199) and consumed
by `StrategyScanner._evaluate_one` (`scanner.py` lines 102-106). -/
structure CoinData where
  exchange : String
  exchange_name : String
  symbol : String
  base : String
  oi_usd : ℚ
  funding_rate : ℚ
  futures_price : ℚ
  spot_price : Option ℚ
  deriving Repr, DecidableEq

/-- The four factor sub-scores stored on a `Signal`
(`scanner.py` lines 178-222, the `factor_scores` dict). -/
structure FactorScores where
  oi : ℝ
  funding : ℝ
  spread : ℝ
  mcap : ℝ

/-- The `Signal` dataclass of `scanner.py` (lines 16-36), minus the
wall-clock `timestamp` convenience field and the display-string properties. -/
structure Signal where
  exchange : String
  exchange_name : String
  symbol : String
  base : String
  futures_price : ℚ
  spot_price : Option ℚ
  oi_usd : ℚ
  mcap : ℚ
  oi_mcap_pct : ℚ
  funding_rate : ℚ
  price_spread : Option ℚ
  score : ℤ
  factor_scores : FactorScores

/-- The mutable state of a `StrategyScanner` (`scanner.py` lines 71-75):
the cooldown map and the three diagnostic counters.  The Python cooldown
dict is read through `get(key, 0)` (line 136), so it is modelled as a total
function defaulting to `0`. -/
structure ScannerState where
  cooldowns : String → ℚ
  coins_scanned : ℕ
  coins_passed_filter : ℕ
  signals_generated : ℕ

/-- A freshly constructed `StrategyScanner`: empty cooldown map,
all counters zero. -/
def initState : ScannerState :=
  { cooldowns := fun _ => 0
    coins_scanned := 0
    coins_passed_filter := 0
    signals_generated := 0 }

/-- Python's `int()` applied to a float: truncation toward zero. -/
noncomputable def pyTrunc (x : ℝ) : ℤ := if 0 ≤ x then ⌊x⌋ else ⌈x⌉

/-- OI/MCap sub-score (`scanner.py` lines 180-184):
`min(25.0, 12.0 * math.log2(1 + oi_mcap_ratio / threshold))`. -/
noncomputable def oiScoreR (cfg : Config) (oiMcapPct : ℚ) : ℝ :=
  min 25 (12 * Real.logb 2 (1 + (oiMcapPct : ℝ) / (cfg.oiMcapThreshold : ℝ)))

/-- Funding sub-score before clamping (`scanner.py` lines 189-199): a
piecewise-linear function of `abs(funding_rate)`, pure rational
arithmetic. -/
def fundScore (funding_rate : ℚ) : ℚ :=
  let abs_fund := |funding_rate|
  if 1/2 ≤ abs_fund then 25
  else if 1/10 ≤ abs_fund then 22 + (abs_fund - 1/10) / (4/10) * 3
  else if 5/100 ≤ abs_fund then 18 + (abs_fund - 5/100) / (5/100) * 4
  else if 1/100 ≤ abs_fund then 10 + (abs_fund - 1/100) / (4/100) * 8
  else abs_fund / (1/100) * 10

/-- Spread sub-score (`scanner.py` lines 202-211): known spread gives
`max(0.0, 25.0 * (1.0 - (abs_spread / max_spread) ** 0.7))`, unknown spread
gives the neutral `10.0`. -/
noncomputable def spreadScoreR (cfg : Config) (price_spread : Option ℚ) : ℝ :=
  match price_spread with
  | some s => max 0 (25 * (1 - ((|s| : ℝ) / (cfg.maxPriceSpread : ℝ)) ^ (0.7 : ℝ)))
  | none => 10

/-- Capitalization sub-score (`scanner.py` lines 213-221): `25.0` for
non-positive capitalization, otherwise
`max(0.0, 25.0 * (1.0 - math.log10(1 + ratio * 9) / math.log10(10)))`
with `ratio = mcap / max_cap`. -/
noncomputable def mcapScoreR (cfg : Config) (mcap : ℚ) : ℝ :=
  if mcap ≤ 0 then 25
  else
    max 0 (25 * (1 - Real.logb 10 (1 + (mcap : ℝ) / (cfg.maxMarketCap : ℝ) * 9)
               / Real.logb 10 10))

/-- `StrategyScanner._calculate_score` (`scanner.py` lines 161-225): the four
sub-scores, their sum truncated by `int(...)` and clamped into `[0, 100]`,
and the stored factor scores (the funding and capitalization entries pass
through `min(25.0, ·)` as in lines 200 and 222; the display rounding to one
decimal is not modelled). -/
noncomputable def calcScore (cfg : Config) (oiMcapPct funding_rate : ℚ) (price_spread : Option ℚ)
    (mcap : ℚ) : ℤ × FactorScores :=
  let oi_score : ℝ := oiScoreR cfg oiMcapPct
  let fund_score : ℝ := (fundScore funding_rate : ℝ)
  let spread_score : ℝ := spreadScoreR cfg price_spread
  let mcap_score : ℝ := mcapScoreR cfg mcap
  let total : ℝ := oi_score + fund_score + spread_score + mcap_score
  (max 0 (min 100 (pyTrunc total)),
   { oi := oi_score
     funding := min 25 fund_score
     spread := spread_score
     mcap := min 25 mcap_score })

/-- The cooldown key `f"{base}_{exchange}"` of `scanner.py` line 134. -/
def cooldownKey (coin : CoinData) : String := coin.base ++ "_" ++ coin.exchange

/-- The `Signal` constructed at `scanner.py` lines 145-159 when every stage
passed: record fields copied through, score and factor scores from
`_calculate_score`. -/
noncomputable def emittedSignal (cfg : Config) (coin : CoinData) (m oiMcapPct : ℚ)
    (price_spread : Option ℚ) : Signal :=
  let sc := calcScore cfg oiMcapPct coin.funding_rate price_spread m
  { exchange := coin.exchange
    exchange_name := coin.exchange_name
    symbol := coin.symbol
    base := coin.base
    futures_price := coin.futures_price
    spot_price := coin.spot_price
    oi_usd := coin.oi_usd
    mcap := m
    oi_mcap_pct := oiMcapPct
    funding_rate := coin.funding_rate
    price_spread := price_spread
    score := sc.1
    factor_scores := sc.2 }

/-- The tail of `StrategyScanner._evaluate_one` after the four filter stages
passed (`scanner.py` lines 130-159): increment `coins_passed_filter`, reject
when the cooldown window has not elapsed, otherwise score, stamp the
cooldown, increment `signals_generated` and emit the `Signal`. -/
noncomputable def afterFilters (cfg : Config) (coin : CoinData) (m oiMcapPct : ℚ)
    (price_spread : Option ℚ) (now : ℚ) (s : ScannerState) :
    Option Signal × ScannerState :=
  let s2 : ScannerState := { s with coins_passed_filter := s.coins_passed_filter + 1 }
  let key := cooldownKey coin
  if now - s2.cooldowns key < cfg.signalCooldown then (none, s2)
  else
    (some (emittedSignal cfg coin m oiMcapPct price_spread),
     { s2 with
        cooldowns := Function.update s2.cooldowns key now
        signals_generated := s2.signals_generated + 1 })

/-- `StrategyScanner._evaluate_one` (`scanner.py` lines 98-159).  The four
filter stages in source order: capitalization (`mcap is None or mcap <= 0`,
then `mcap > MAX_MARKET_CAP`), OI intensity, funding direction, price
fairness (the spread is computed only under Python's
`if spot_price and spot_price > 0`, so a missing or non-positive spot price
skips the stage).  Every call increments `coins_scanned` first. -/
noncomputable def evalOne (cfg : Config) (coin : CoinData) (mcap : Option ℚ) (now : ℚ)
    (s : ScannerState) : Option Signal × ScannerState :=
  let s1 : ScannerState := { s with coins_scanned := s.coins_scanned + 1 }
  match mcap with
  | none => (none, s1)
  | some m =>
    if m ≤ 0 then (none, s1)
    else if cfg.maxMarketCap < m then (none, s1)
    else
      let oiMcapPct := coin.oi_usd / m * 100
      if oiMcapPct < cfg.oiMcapThreshold then (none, s1)
      else if cfg.maxFundingRate < coin.funding_rate then (none, s1)
      else
        match coin.spot_price with
        | some sp =>
          if 0 < sp then
            let ps := (coin.futures_price - sp) / sp * 100
            if cfg.maxPriceSpread < |ps| then (none, s1)
            else afterFilters cfg coin m oiMcapPct (some ps) now s1
          else afterFilters cfg coin m oiMcapPct none now s1
        | none => afterFilters cfg coin m oiMcapPct none now s1

/-- Insert a signal into a score-descending list, keeping earlier signals
first among equal scores (Python's stable `list.sort(key=score, reverse=True)`
of `scanner.py` line 95). -/
def insertDesc (a : Signal) : List Signal → List Signal
  | [] => [a]
  | b :: t => if b.score < a.score then a :: b :: t else b :: insertDesc a t

/-- Stable sort by score descending (`scanner.py` line 95). -/
def sortSignals (l : List Signal) : List Signal := l.foldr insertDesc []

/-- The evaluation loop of `StrategyScanner.evaluate_batch`
(`scanner.py` lines 85-92): look up the capitalization of `base.upper()`
and evaluate each record in order, threading the scanner state. -/
noncomputable def evalLoop (cfg : Config) (mcapLookup : String → Option ℚ) (now : ℚ) :
    List (String × CoinData) → ScannerState → List Signal × ScannerState
  | [], s => ([], s)
  | (_, coin) :: rest, s =>
    let m := mcapLookup coin.base.toUpper
    let r1 := evalOne cfg coin m now s
    let r2 := evalLoop cfg mcapLookup now rest r1.2
    ((match r1.1 with | some sig => sig :: r2.1 | none => r2.1), r2.2)

/-- `StrategyScanner.evaluate_batch` (`scanner.py` lines 77-96): evaluate
every record, then return the signals sorted by score descending together
with the final scanner state. -/
noncomputable def evaluateBatch (cfg : Config) (all_data : List (String × CoinData))
    (mcapLookup : String → Option ℚ) (now : ℚ) (s : ScannerState) :
    List Signal × ScannerState :=
  let r := evalLoop cfg mcapLookup now all_data s
  (sortSignals r.1, r.2)

/-- `MarketCapProvider.get_low_cap_symbols` (`marketcap.py` lines 141-145):
`{sym for sym, cap in self._cache.items() if cap <= max_cap}`, where the
`max_cap` argument defaults to `config.MAX_MARKET_CAP`.  The cache is the
`SYMBOL → mcap_usd` dict, modelled as an association list. -/
def get_low_cap_symbols (cache : List (String × ℚ)) (max_cap : ℚ) : List String :=
  (cache.filter fun p => p.2 ≤ max_cap).map Prod.fst

/-- A cached tradable pair (`exchanges.py` lines 104-108). -/
structure TradablePair where
  symbol : String
  base : String
  deriving Repr, DecidableEq

/-- The assembly step 6 of `ExchangeManager.fetch_all_data`
(`exchanges.py` lines 174-199): for each target pair look up futures price,
funding rate and open interest; skip the symbol if any of the three is
missing or if `futures_price <= 0 or oi_usd <= 0`; otherwise build the
normalized record, with the spot price looked up by base (may be absent). -/
def fetchAssemble (eid name : String) (tickers funding_rates oi_data : String → Option ℚ)
    (spot_prices : String → Option ℚ) : List TradablePair → List (String × CoinData)
  | [] => []
  | p :: rest =>
    let tail := fetchAssemble eid name tickers funding_rates oi_data spot_prices rest
    match tickers p.symbol, funding_rates p.symbol, oi_data p.symbol with
    | some fp, some fr, some o =>
      if fp ≤ 0 ∨ o ≤ 0 then tail
      else
        (p.symbol,
          { exchange := eid
            exchange_name := name
            symbol := p.symbol
            base := p.base
            oi_usd := o
            funding_rate := fr
            futures_price := fp
            spot_price := spot_prices p.base }) :: tail
    | _, _, _ => tail

/-- The capitalization-stage rejection of `scanner.py` lines 108-112, as a
standalone predicate: reject when the capitalization is unknown,
non-positive, or above `MAX_MARKET_CAP` (the upper-bound test is
unconditional in the source). -/
def capRejects (cfg : Config) (mcap : Option ℚ) : Bool :=
  match mcap with
  | none => true
  | some m => decide (m ≤ 0) || decide (cfg.maxMarketCap < m)

/-- Modelled from the spec: the capitalization-stage rejection as §4.3
stage 1 words it — "reject if capitalization unknown, or below the
configured minimum, or (when an upper bound is configured and positive)
above it".  Stated for comparison with `capRejects`, the source behaviour. -/
def specCapRejects (cfg : Config) (mcap : Option ℚ) : Bool :=
  match mcap with
  | none => true
  | some m =>
    decide (m < cfg.minMarketCap) ||
      (decide (0 < cfg.maxMarketCap) && decide (cfg.maxMarketCap < m))

/-- Modelled from the spec: the eligible-symbols set as §4.2
`eligibleSymbols` words it — "all base assets whose cached capitalization
satisfies the currently configured lower bound (and, if set, upper bound)".
Stated for comparison with `get_low_cap_symbols`, the source behaviour. -/
def specEligible (cfg : Config) (cache : List (String × ℚ)) (sym : String) : Prop :=
  ∃ cap, (sym, cap) ∈ cache ∧ cfg.minMarketCap ≤ cap ∧
    (0 < cfg.maxMarketCap → cap ≤ cfg.maxMarketCap)

/-! ## Concrete fixtures used by witnesses and counterexamples -/

/-- The shipped configuration with the market-cap upper limit set to
$5M (a positive `MAX_MARKET_CAP`, as an operator would set it). -/
def cfg5 : Config := { defaultConfig with maxMarketCap := 5000000 }

/-- A record that passes every filter stage of `cfg5` when its
capitalization is 5000000: `oi_usd / mcap * 100 = 25` meets the threshold,
funding `-0.5` is far below `-0.01`, and there is no spot price. -/
def coinW : CoinData :=
  { exchange := "mexc"
    exchange_name := "MEXC"
    symbol := "AAAUSDT"
    base := "AAA"
    oi_usd := 1250000
    funding_rate := -(1/2)
    futures_price := 1
    spot_price := none }

/-- The same record with a smaller open interest, paired below with a
capitalization of 1000000 (below the configured minimum of 3000000):
`oi_usd / mcap * 100 = 100`, funding `-0.5` — all non-capitalization
factors are strong. -/
def coinLow : CoinData := { coinW with oi_usd := 1000000 }

/-! ## Basic facts about the funding sub-score -/

/-- The funding sub-score is never negative. -/
lemma fundScore_nonneg (f : ℚ) : 0 ≤ fundScore f := by
  have ha : (0 : ℚ) ≤ |f| := abs_nonneg f
  simp only [fundScore]
  split_ifs with h1 h2 h3 h4 <;> push_neg at * <;> linarith

/-- The funding sub-score never exceeds 25 (so the `min(25.0, ·)` clamp of
`scanner.py` line 200 never bites). -/
lemma fundScore_le_25 (f : ℚ) : fundScore f ≤ 25 := by
  have ha : (0 : ℚ) ≤ |f| := abs_nonneg f
  simp only [fundScore]
  split_ifs with h1 h2 h3 h4 <;> push_neg at * <;> linarith

/-- C3 counterexample: the claim says `funding_rate_pct = -0.01` yields a
funding sub-score of exactly 0, but the code (`scanner.py` line 197) puts
`abs_fund = 0.01` in the `>= 0.01` branch, which yields exactly 10.  The
claim's breakpoint table is shifted by one slot against the code (and
against the code's own comment at line 188: `-0.01% → 10, -0.05% → 18,
-0.1% → 22, -0.5%+ → 25`). -/
theorem c3_counterexample : fundScore (-(1/100)) = 10 ∧ (10 : ℚ) ≠ 0 := by
  constructor
  · have habs : |(-(1/100) : ℚ)| = 1/100 := by
      rw [abs_neg]; exact abs_of_nonneg (by norm_num)
    simp only [fundScore, habs]
    norm_num
  · norm_num

/-- C3 amended: the funding sub-score is the piecewise-linear function of
`|funding_rate_pct|` with breakpoints 0 → 0, 0.01 → 10, 0.05 → 18,
0.1 → 22, 0.5 → 25, each segment interpolating linearly between its
endpoints, saturating at 25 at and above 0.5; in particular
`funding_rate_pct = -0.01` yields exactly 10 (not 0), and any
`funding_rate_pct ≤ -0.5` yields exactly 25. -/
theorem c3_funding_piecewise :
    (∀ f : ℚ, f ≤ -(1/2) → fundScore f = 25) ∧
    (fundScore (-(1/100)) = 10 ∧ fundScore (-(5/100)) = 18 ∧
      fundScore (-(1/10)) = 22 ∧ fundScore (-(1/2)) = 25 ∧ fundScore 0 = 0) ∧
    (∀ f : ℚ, |f| < 1/100 → fundScore f = 0 + (|f| - 0) / (1/100 - 0) * (10 - 0)) ∧
    (∀ f : ℚ, 1/100 ≤ |f| → |f| < 5/100 →
      fundScore f = 10 + (|f| - 1/100) / (5/100 - 1/100) * (18 - 10)) ∧
    (∀ f : ℚ, 5/100 ≤ |f| → |f| < 1/10 →
      fundScore f = 18 + (|f| - 5/100) / (1/10 - 5/100) * (22 - 18)) ∧
    (∀ f : ℚ, 1/10 ≤ |f| → |f| < 1/2 →
      fundScore f = 22 + (|f| - 1/10) / (1/2 - 1/10) * (25 - 22)) ∧
    (∀ f : ℚ, 1/2 ≤ |f| → fundScore f = 25) := by
  have habs : ∀ q : ℚ, 0 ≤ q → |(-q : ℚ)| = q := fun q hq => by
    rw [abs_neg]; exact abs_of_nonneg hq
  refine ⟨?_, ⟨?_, ?_, ?_, ?_, ?_⟩, ?_, ?_, ?_, ?_, ?_⟩
  · intro f hf
    have h : (1/2 : ℚ) ≤ |f| := le_abs.mpr (Or.inr (by linarith))
    simp only [fundScore]
    rw [if_pos h]
  · simp only [fundScore, habs (1/100 : ℚ) (by norm_num)]
    norm_num
  · simp only [fundScore, habs (5/100 : ℚ) (by norm_num)]
    norm_num
  · simp only [fundScore, habs (1/10 : ℚ) (by norm_num)]
    norm_num
  · simp only [fundScore, habs (1/2 : ℚ) (by norm_num)]
    norm_num
  · simp only [fundScore, abs_zero]
    norm_num
  · intro f hf
    simp only [fundScore]
    split_ifs with h1 h2 h3 h4 <;> first
      | (exfalso; linarith)
      | ring_nf
  · intro f hf1 hf2
    simp only [fundScore]
    split_ifs with h1 h2 h3 h4 <;> first
      | (exfalso; linarith)
      | ring_nf
  · intro f hf1 hf2
    simp only [fundScore]
    split_ifs with h1 h2 h3 h4 <;> first
      | (exfalso; linarith)
      | ring_nf
  · intro f hf1 hf2
    simp only [fundScore]
    split_ifs with h1 h2 h3 h4 <;> first
      | (exfalso; linarith)
      | ring_nf
  · intro f hf
    simp only [fundScore]
    rw [if_pos hf]

/-- C3 witness: the amended piecewise form evaluated at `-0.7`
(saturated segment) and at `-0.03` (the 0.01→0.05 segment). -/
theorem c3_witness :
    fundScore (-(7/10)) = 25 ∧
    fundScore (-(3/100)) = 10 + (|(-(3/100) : ℚ)| - 1/100) / (5/100 - 1/100) * (18 - 10) := by
  have h3 : |(-(3/100) : ℚ)| = 3/100 := by
    rw [abs_neg]; exact abs_of_nonneg (by norm_num)
  exact ⟨c3_funding_piecewise.1 (-(7/10)) (by norm_num),
    c3_funding_piecewise.2.2.2.1 (-(3/100)) (by rw [h3]; norm_num) (by rw [h3]; norm_num)⟩

/-! ## C2: the eligible-symbols query -/

/-- C2 counterexample: with the configured bounds `MIN_MARKET_CAP = 3000000`
and `MAX_MARKET_CAP = 5000000`, a cache holding one asset of capitalization
1000000 makes `get_low_cap_symbols` return that asset, while the claimed
set — capitalizations satisfying the configured lower bound and upper
bound — is empty: the code applies no lower bound at all
(`marketcap.py` line 145 keeps every `cap <= max_cap`). -/
theorem c2_counterexample :
    "AAA" ∈ get_low_cap_symbols [("AAA", 1000000)] cfg5.maxMarketCap ∧
    ¬ specEligible cfg5 [("AAA", 1000000)] "AAA" := by
  constructor
  · simp only [get_low_cap_symbols, cfg5, defaultConfig]
    norm_num
  · rintro ⟨cap, hmem, hmin, -⟩
    simp only [List.mem_singleton, Prod.mk.injEq] at hmem
    rcases hmem with ⟨-, rfl⟩
    norm_num [cfg5, defaultConfig] at hmin

/-- C2 amended: for every cache state, `get_low_cap_symbols` returns exactly
the set of base assets whose cached capitalization is at most the given
`max_cap` bound (the argument defaulting to `MAX_MARKET_CAP`), applied
unconditionally; no lower bound is consulted. -/
theorem c2_low_cap_symbols (cache : List (String × ℚ)) (max_cap : ℚ) (sym : String) :
    sym ∈ get_low_cap_symbols cache max_cap ↔
      ∃ cap, (sym, cap) ∈ cache ∧ cap ≤ max_cap := by
  unfold get_low_cap_symbols
  simp only [List.mem_map, List.mem_filter, decide_eq_true_eq]
  constructor
  · rintro ⟨⟨a, b⟩, ⟨hm, hle⟩, rfl⟩
    exact ⟨b, hm, hle⟩
  · rintro ⟨cap, hm, hle⟩
    exact ⟨(sym, cap), ⟨hm, hle⟩, rfl⟩

/-! ## C10: completeness of assembled normalized records -/

/-- C10: a symbol appears in the assembled output of `fetch_all_data` only
if its futures price, funding rate, and open interest were all successfully
retrieved, with a positive futures price and positive open interest, and
the record's fields are exactly the retrieved values (never defaulted). -/
theorem c10_normalized_records_complete (eid name : String)
    (tickers funding_rates oi_data spot_prices : String → Option ℚ)
    (pairs : List TradablePair) (sym : String) (rec : CoinData)
    (h : (sym, rec) ∈ fetchAssemble eid name tickers funding_rates oi_data spot_prices pairs) :
    tickers sym = some rec.futures_price ∧
    funding_rates sym = some rec.funding_rate ∧
    oi_data sym = some rec.oi_usd ∧
    0 < rec.futures_price ∧ 0 < rec.oi_usd ∧ rec.symbol = sym := by
  induction pairs with
  | nil => simp [fetchAssemble] at h
  | cons p rest ih =>
    simp only [fetchAssemble] at h
    split at h
    case _ fp fr o ht hf ho =>
      split_ifs at h with hneg
      · exact ih h
      · push_neg at hneg
        rcases List.mem_cons.mp h with heq | hmem
        · rcases Prod.mk.injEq .. ▸ heq with ⟨rfl, rfl⟩
          exact ⟨ht, hf, ho, hneg.1, hneg.2, rfl⟩
        · exact ih hmem
    case _ => exact ih h

/-- Concrete fetched data for the C10 witness: every symbol resolves. -/
def tickersW : String → Option ℚ := fun _ => some 2

/-- Concrete funding-rate data for the C10 witness. -/
def fundingW : String → Option ℚ := fun _ => some (-(5/100))

/-- Concrete open-interest data for the C10 witness. -/
def oiW : String → Option ℚ := fun _ => some 1000000

/-- Concrete (empty) spot-price data for the C10 witness. -/
def spotW : String → Option ℚ := fun _ => none

/-- One tradable pair for the C10 witness. -/
def pairsW : List TradablePair := [{ symbol := "AAAUSDT", base := "AAA" }]

/-- The record assembled from the C10 witness data. -/
def recW : CoinData :=
  { exchange := "mexc"
    exchange_name := "MEXC"
    symbol := "AAAUSDT"
    base := "AAA"
    oi_usd := 1000000
    funding_rate := -(5/100)
    futures_price := 2
    spot_price := none }

/-- C10 witness: the assembled record for `AAAUSDT` carries exactly the
retrieved price, funding rate and open interest, all positive where
required. -/
theorem c10_witness :
    tickersW "AAAUSDT" = some recW.futures_price ∧
    fundingW "AAAUSDT" = some recW.funding_rate ∧
    oiW "AAAUSDT" = some recW.oi_usd ∧
    0 < recW.futures_price ∧ 0 < recW.oi_usd ∧ recW.symbol = "AAAUSDT" :=
  c10_normalized_records_complete "mexc" "MEXC" tickersW fundingW oiW spotW pairsW
    "AAAUSDT" recW
    (by simp only [fetchAssemble, pairsW, tickersW, fundingW, oiW, spotW, recW]
        norm_num)

/-! ## Characterization of the evaluation pipeline -/

/-- The price spread `_evaluate_one` ends up carrying: computed only under
Python's `if spot_price and spot_price > 0` (`scanner.py` line 125). -/
def computedSpread (coin : CoinData) : Option ℚ :=
  match coin.spot_price with
  | some sp => if 0 < sp then some ((coin.futures_price - sp) / sp * 100) else none
  | none => none

/-- Unfolded form of `afterFilters`. -/
lemma afterFilters_eq (cfg : Config) (coin : CoinData) (m pct : ℚ) (ps : Option ℚ)
    (now : ℚ) (s : ScannerState) :
    afterFilters cfg coin m pct ps now s =
      if now - s.cooldowns (cooldownKey coin) < cfg.signalCooldown then
        (none, { s with coins_passed_filter := s.coins_passed_filter + 1 })
      else
        (some (emittedSignal cfg coin m pct ps),
         { s with
            coins_passed_filter := s.coins_passed_filter + 1
            cooldowns := Function.update s.cooldowns (cooldownKey coin) now
            signals_generated := s.signals_generated + 1 }) := rfl

/-- A signal returned by `afterFilters` is the emitted signal of its
arguments. -/
lemma afterFilters_fst_some {cfg : Config} {coin : CoinData} {m pct : ℚ}
    {ps : Option ℚ} {now : ℚ} {s : ScannerState} {sig : Signal}
    (h : (afterFilters cfg coin m pct ps now s).1 = some sig) :
    sig = emittedSignal cfg coin m pct ps := by
  rw [afterFilters_eq] at h
  by_cases hc : now - s.cooldowns (cooldownKey coin) < cfg.signalCooldown
  · rw [if_pos hc] at h
    exact Option.noConfusion h
  · rw [if_neg hc] at h
    exact (Option.some_inj.mp h).symm

/-- A record passing all four filter stages and the cooldown check produces
the emitted signal, stamps the cooldown and increments all three
counters. -/
lemma evalOne_pass (cfg : Config) (coin : CoinData) (m now : ℚ) (s : ScannerState)
    (hm : ¬ m ≤ 0) (hmax : ¬ cfg.maxMarketCap < m)
    (hoi : ¬ coin.oi_usd / m * 100 < cfg.oiMcapThreshold)
    (hf : ¬ cfg.maxFundingRate < coin.funding_rate)
    (hsp : ∀ sp, coin.spot_price = some sp → 0 < sp →
      ¬ cfg.maxPriceSpread < |(coin.futures_price - sp) / sp * 100|)
    (hcool : ¬ now - s.cooldowns (cooldownKey coin) < cfg.signalCooldown) :
    evalOne cfg coin (some m) now s =
      (some (emittedSignal cfg coin m (coin.oi_usd / m * 100) (computedSpread coin)),
       { cooldowns := Function.update s.cooldowns (cooldownKey coin) now
         coins_scanned := s.coins_scanned + 1
         coins_passed_filter := s.coins_passed_filter + 1
         signals_generated := s.signals_generated + 1 }) := by
  simp only [evalOne]
  rw [if_neg hm, if_neg hmax, if_neg hoi, if_neg hf]
  rcases hspe : coin.spot_price with _ | sp
  · have hcs : computedSpread coin = none := by simp [computedSpread, hspe]
    rw [hcs]
    dsimp only
    rw [afterFilters_eq]
    dsimp only
    rw [if_neg hcool]
  · dsimp only
    by_cases hp : 0 < sp
    · have hcs : computedSpread coin = some ((coin.futures_price - sp) / sp * 100) := by
        simp only [computedSpread, hspe]
        rw [if_pos hp]
      rw [hcs, if_pos hp, if_neg (hsp sp hspe hp), afterFilters_eq]
      dsimp only
      rw [if_neg hcool]
    · have hcs : computedSpread coin = none := by
        simp only [computedSpread, hspe]
        rw [if_neg hp]
      rw [hcs, if_neg hp, afterFilters_eq]
      dsimp only
      rw [if_neg hcool]

/-- A record passing all four filter stages but still inside the cooldown
window is rejected, incrementing `coins_scanned` and `coins_passed_filter`
but touching neither `signals_generated` nor the cooldown map. -/
lemma evalOne_cooldown_reject (cfg : Config) (coin : CoinData) (m now : ℚ)
    (s : ScannerState)
    (hm : ¬ m ≤ 0) (hmax : ¬ cfg.maxMarketCap < m)
    (hoi : ¬ coin.oi_usd / m * 100 < cfg.oiMcapThreshold)
    (hf : ¬ cfg.maxFundingRate < coin.funding_rate)
    (hsp : ∀ sp, coin.spot_price = some sp → 0 < sp →
      ¬ cfg.maxPriceSpread < |(coin.futures_price - sp) / sp * 100|)
    (hcool : now - s.cooldowns (cooldownKey coin) < cfg.signalCooldown) :
    evalOne cfg coin (some m) now s =
      (none,
       { s with
          coins_scanned := s.coins_scanned + 1
          coins_passed_filter := s.coins_passed_filter + 1 }) := by
  simp only [evalOne]
  rw [if_neg hm, if_neg hmax, if_neg hoi, if_neg hf]
  rcases hspe : coin.spot_price with _ | sp
  · dsimp only
    rw [afterFilters_eq]
    dsimp only
    rw [if_pos hcool]
  · dsimp only
    by_cases hp : 0 < sp
    · rw [if_pos hp, if_neg (hsp sp hspe hp), afterFilters_eq]
      dsimp only
      rw [if_pos hcool]
    · rw [if_neg hp, afterFilters_eq]
      dsimp only
      rw [if_pos hcool]

/-- A capitalization-stage rejection returns no signal and increments only
`coins_scanned`, no matter what the other factors are. -/
lemma evalOne_cap_reject (cfg : Config) (coin : CoinData) (mcap : Option ℚ)
    (now : ℚ) (s : ScannerState) (h : capRejects cfg mcap = true) :
    evalOne cfg coin mcap now s =
      (none, { s with coins_scanned := s.coins_scanned + 1 }) := by
  rcases mcap with _ | m
  · rfl
  · simp only [capRejects, Bool.or_eq_true, decide_eq_true_eq] at h
    simp only [evalOne]
    rcases h with h | h
    · rw [if_pos h]
    · by_cases hm0 : m ≤ 0
      · rw [if_pos hm0]
      · rw [if_neg hm0, if_pos h]

/-- Inversion: whenever `_evaluate_one` emits a signal, the record passed
every filter stage, and the signal is the emitted signal of the record's
data. -/
lemma evalOne_fst_some {cfg : Config} {coin : CoinData} {mcap : Option ℚ}
    {now : ℚ} {s : ScannerState} {sig : Signal}
    (h : (evalOne cfg coin mcap now s).1 = some sig) :
    ∃ m ps, mcap = some m ∧ 0 < m ∧ m ≤ cfg.maxMarketCap ∧
      cfg.oiMcapThreshold ≤ coin.oi_usd / m * 100 ∧
      coin.funding_rate ≤ cfg.maxFundingRate ∧
      (ps = none ∨ ∃ q, ps = some q ∧ |q| ≤ cfg.maxPriceSpread) ∧
      (coin.spot_price = none → ps = none) ∧
      sig = emittedSignal cfg coin m (coin.oi_usd / m * 100) ps := by
  rcases mcap with _ | m
  · simp [evalOne] at h
  · simp only [evalOne] at h
    split_ifs at h with h1 h2 h3 h4
    rcases hspe : coin.spot_price with _ | sp
    · rw [hspe] at h
      dsimp only at h
      exact ⟨m, none, rfl, by linarith [not_le.mp h1], not_lt.mp h2,
        not_lt.mp h3, not_lt.mp h4, Or.inl rfl, fun _ => rfl,
        afterFilters_fst_some h⟩
    · rw [hspe] at h
      dsimp only at h
      split_ifs at h with hp hps
      · exact ⟨m, some ((coin.futures_price - sp) / sp * 100), rfl,
          by linarith [not_le.mp h1], not_lt.mp h2, not_lt.mp h3,
          not_lt.mp h4,
          Or.inr ⟨_, rfl, not_lt.mp hps⟩,
          fun hc => Option.noConfusion hc,
          afterFilters_fst_some h⟩
      · exact ⟨m, none, rfl, by linarith [not_le.mp h1], not_lt.mp h2,
          not_lt.mp h3, not_lt.mp h4, Or.inl rfl, fun _ => rfl,
          afterFilters_fst_some h⟩

/-! ## Bounds on the four sub-scores -/

/-- The OI sub-score is clamped at 25. -/
lemma oiScoreR_le_25 (cfg : Config) (r : ℚ) : oiScoreR cfg r ≤ 25 :=
  min_le_left _ _

/-- The OI sub-score of a record at or above a positive threshold is
non-negative. -/
lemma oiScoreR_nonneg (cfg : Config) (r : ℚ) (hθ : 0 < cfg.oiMcapThreshold)
    (hr : cfg.oiMcapThreshold ≤ r) : 0 ≤ oiScoreR cfg r := by
  apply le_min (by norm_num)
  have hθR : (0 : ℝ) < (cfg.oiMcapThreshold : ℝ) := by exact_mod_cast hθ
  have hrR : (0 : ℝ) ≤ (r : ℝ) := by exact_mod_cast hθ.le.trans hr
  have h1 : (0 : ℝ) ≤ (r : ℝ) / (cfg.oiMcapThreshold : ℝ) := div_nonneg hrR hθR.le
  have h2 : 0 ≤ Real.logb 2 (1 + (r : ℝ) / (cfg.oiMcapThreshold : ℝ)) :=
    Real.logb_nonneg (by norm_num) (by linarith)
  exact mul_nonneg (by norm_num) h2

/-- The spread sub-score is never negative. -/
lemma spreadScoreR_nonneg (cfg : Config) (ps : Option ℚ) : 0 ≤ spreadScoreR cfg ps := by
  rcases ps with _ | q
  · norm_num [spreadScoreR]
  · simp only [spreadScoreR]
    exact le_max_left _ _

/-- The spread sub-score of a spread within the configured positive bound is
at most 25. -/
lemma spreadScoreR_le_25 (cfg : Config) (ps : Option ℚ)
    (hsp : 0 < cfg.maxPriceSpread)
    (hb : ∀ q, ps = some q → |q| ≤ cfg.maxPriceSpread) :
    spreadScoreR cfg ps ≤ 25 := by
  rcases ps with _ | q
  · norm_num [spreadScoreR]
  · simp only [spreadScoreR]
    have h1 : (0 : ℝ) ≤ ((|q| : ℝ) / (cfg.maxPriceSpread : ℝ)) ^ (0.7 : ℝ) :=
      Real.rpow_nonneg
        (div_nonneg (by exact_mod_cast abs_nonneg q) (by exact_mod_cast hsp.le)) _
    apply max_le (by norm_num)
    linarith

/-- The capitalization sub-score is never negative. -/
lemma mcapScoreR_nonneg (cfg : Config) (m : ℚ) : 0 ≤ mcapScoreR cfg m := by
  simp only [mcapScoreR]
  split_ifs
  · norm_num
  · exact le_max_left _ _

/-- The capitalization sub-score of a positive capitalization within the
upper bound is at most 25 (so the `min(25.0, ·)` clamp of `scanner.py`
line 222 never bites for records that reach the scorer). -/
lemma mcapScoreR_le_25 (cfg : Config) (m : ℚ) (h0 : 0 < m)
    (hle : m ≤ cfg.maxMarketCap) : mcapScoreR cfg m ≤ 25 := by
  simp only [mcapScoreR]
  rw [if_neg (not_le.mpr h0)]
  apply max_le (by norm_num)
  have hmaxR : (0 : ℝ) < (cfg.maxMarketCap : ℝ) := by exact_mod_cast h0.trans_le hle
  have hmR : (0 : ℝ) < (m : ℝ) := by exact_mod_cast h0
  have hr : (0 : ℝ) ≤ (m : ℝ) / (cfg.maxMarketCap : ℝ) * 9 := by positivity
  have hL : 0 ≤ Real.logb 10 (1 + (m : ℝ) / (cfg.maxMarketCap : ℝ) * 9) :=
    Real.logb_nonneg (by norm_num) (by linarith)
  have hL10 : Real.logb 10 10 = 1 := Real.logb_self_eq_one (by norm_num)
  rw [hL10, div_one]
  linarith

/-! ## The concrete passing evaluation shared by witnesses -/

/-- Evaluating `coinW` with capitalization 5000000 under `cfg5` at time 1800
from the fresh state passes every stage and emits the signal. -/
lemma evalOne_coinW_pass :
    evalOne cfg5 coinW (some 5000000) 1800 initState =
      (some (emittedSignal cfg5 coinW 5000000 (coinW.oi_usd / 5000000 * 100)
        (computedSpread coinW)),
       { cooldowns := Function.update initState.cooldowns (cooldownKey coinW) 1800
         coins_scanned := 1
         coins_passed_filter := 1
         signals_generated := 1 }) := by
  have h := evalOne_pass cfg5 coinW 5000000 1800 initState
    (by norm_num)
    (by norm_num [cfg5, defaultConfig])
    (by norm_num [coinW, cfg5, defaultConfig])
    (by norm_num [coinW, cfg5, defaultConfig])
    (by intro sp hsp _; simp [coinW] at hsp)
    (by norm_num [initState, cfg5, defaultConfig])
  rw [h]
  norm_num [initState]

/-- The signal emitted by that evaluation. -/
noncomputable def sigW : Signal :=
  emittedSignal cfg5 coinW 5000000 (coinW.oi_usd / 5000000 * 100) (computedSpread coinW)

/-- Projection of `evalOne_coinW_pass` onto the returned signal. -/
lemma evalOne_coinW_fst :
    (evalOne cfg5 coinW (some 5000000) 1800 initState).1 = some sigW := by
  rw [evalOne_coinW_pass]
  rfl

/-- `coinW` carries no spot price, so its computed spread is `none`. -/
lemma computedSpread_coinW : computedSpread coinW = none := by
  simp [computedSpread, coinW]

/-! ## C1: the capitalization stage -/

/-- C1 counterexample: under `cfg5` (minimum 3000000, upper limit 5000000) a
record with capitalization 1000000 — strictly below the configured
minimum — is not rejected at the capitalization stage; with strong other
factors it is accepted outright, contradicting the claim that
below-minimum records are always rejected.  Conversely, under the shipped
default (`MAX_MARKET_CAP = 0`, "no upper bound configured"), a record with
capitalization 5000000 (above the minimum) is rejected even though the
claim's condition does not hold: the code checks `mcap > MAX_MARKET_CAP`
unconditionally and never consults `MIN_MARKET_CAP`. -/
theorem c1_counterexample :
    capRejects cfg5 (some 1000000) = false ∧
    specCapRejects cfg5 (some 1000000) = true ∧
    (1000000 : ℚ) < cfg5.minMarketCap ∧
    ((evalOne cfg5 coinLow (some 1000000) 1800 initState).1).isSome = true ∧
    capRejects defaultConfig (some 5000000) = true ∧
    specCapRejects defaultConfig (some 5000000) = false := by
  refine ⟨?_, ?_, ?_, ?_, ?_, ?_⟩
  · norm_num [capRejects, cfg5, defaultConfig]
  · norm_num [specCapRejects, cfg5, defaultConfig]
  · norm_num [cfg5, defaultConfig]
  · rw [evalOne_pass cfg5 coinLow 1000000 1800 initState
      (by norm_num)
      (by norm_num [cfg5, defaultConfig])
      (by norm_num [coinLow, coinW, cfg5, defaultConfig])
      (by norm_num [coinLow, coinW, cfg5, defaultConfig])
      (by intro sp hsp _; simp [coinLow, coinW] at hsp)
      (by norm_num [initState, cfg5, defaultConfig])]
    rfl
  · norm_num [capRejects, defaultConfig]
  · norm_num [specCapRejects, defaultConfig]

/-- C1 amended: the capitalization stage rejects a record exactly when its
capitalization is unknown, non-positive, or above `MAX_MARKET_CAP` — the
upper-bound test is applied unconditionally (even when the bound is 0,
documented as "no limit"), and the configured minimum `MIN_MARKET_CAP` is
never consulted.  Any record so rejected produces no signal no matter how
strong the other three factors are, and only `coins_scanned` moves. -/
theorem c1_cap_stage (cfg : Config) (mcap : Option ℚ) :
    (capRejects cfg mcap = true ↔
      mcap = none ∨ ∃ m, mcap = some m ∧ (m ≤ 0 ∨ cfg.maxMarketCap < m)) ∧
    (∀ (coin : CoinData) (now : ℚ) (s : ScannerState), capRejects cfg mcap = true →
      (evalOne cfg coin mcap now s).1 = none) := by
  constructor
  · rcases mcap with _ | m
    · simp [capRejects]
    · simp [capRejects]
  · intro coin now s h
    rw [evalOne_cap_reject cfg coin mcap now s h]

/-- C1 witness: under the shipped default configuration every positive
capitalization is rejected at the capitalization stage; at 5000000 the
amended characterization applies and the evaluation returns no signal. -/
theorem c1_witness :
    capRejects defaultConfig (some 5000000) = true ∧
    (evalOne defaultConfig coinW (some 5000000) 1800 initState).1 = none := by
  have h : capRejects defaultConfig (some 5000000) = true := by
    norm_num [capRejects, defaultConfig]
  exact ⟨h, (c1_cap_stage defaultConfig (some 5000000)).2 coinW 1800 initState h⟩

/-! ## C4: the diagnostic counters -/

/-- How one evaluation moves the three counters: `coins_scanned` always
increments; on an emitted signal `coins_passed_filter` and
`signals_generated` increment; on a rejection `signals_generated` is
untouched and `coins_passed_filter` moves only for a cooldown-stage
rejection. -/
lemma evalOne_state_shape (cfg : Config) (coin : CoinData) (mcap : Option ℚ)
    (now : ℚ) (s : ScannerState) :
    ((evalOne cfg coin mcap now s).2.coins_scanned = s.coins_scanned + 1) ∧
    ((evalOne cfg coin mcap now s).1.isSome = true →
      (evalOne cfg coin mcap now s).2.coins_passed_filter = s.coins_passed_filter + 1 ∧
      (evalOne cfg coin mcap now s).2.signals_generated = s.signals_generated + 1) ∧
    ((evalOne cfg coin mcap now s).1 = none →
      (evalOne cfg coin mcap now s).2.signals_generated = s.signals_generated ∧
      ((evalOne cfg coin mcap now s).2.coins_passed_filter = s.coins_passed_filter ∨
        (evalOne cfg coin mcap now s).2.coins_passed_filter = s.coins_passed_filter + 1)) := by
  rcases mcap with _ | m
  · simp [evalOne]
  · simp only [evalOne]
    split_ifs with h1 h2 h3 h4 <;> try simp
    rcases hspe : coin.spot_price with _ | sp <;> dsimp only
    · rw [afterFilters_eq]
      split_ifs <;> simp
    · split_ifs with hp hps
      · simp
      · rw [afterFilters_eq]
        split_ifs <;> simp
      · rw [afterFilters_eq]
        split_ifs <;> simp

/-- Whether a record passes the four filter stages of `_evaluate_one`
(`scanner.py` lines 108-128) and so reaches the `coins_passed_filter`
increment at line 131: the same guards, in the same order, as `evalOne`. -/
def passesFilters (cfg : Config) (coin : CoinData) (mcap : Option ℚ) : Bool :=
  match mcap with
  | none => false
  | some m =>
    if m ≤ 0 then false
    else if cfg.maxMarketCap < m then false
    else if coin.oi_usd / m * 100 < cfg.oiMcapThreshold then false
    else if cfg.maxFundingRate < coin.funding_rate then false
    else
      match coin.spot_price with
      | some sp =>
        if 0 < sp then
          if cfg.maxPriceSpread < |(coin.futures_price - sp) / sp * 100| then false
          else true
        else true
      | none => true

/-- `coins_passed_filter` moves by exactly one when the record passes the
four filter stages (whether the cooldown check then accepts or rejects it),
and is untouched by any filter-stage rejection. -/
lemma evalOne_passed_filter (cfg : Config) (coin : CoinData) (mcap : Option ℚ)
    (now : ℚ) (s : ScannerState) :
    (evalOne cfg coin mcap now s).2.coins_passed_filter
      = s.coins_passed_filter + (if passesFilters cfg coin mcap = true then 1 else 0) := by
  rcases mcap with _ | m
  · simp [evalOne, passesFilters]
  · simp only [evalOne, passesFilters]
    split_ifs with h1 h2 h3 h4 <;> try simp
    all_goals try assumption
    all_goals rcases hspe : coin.spot_price with _ | sp
    all_goals try simp_all
    all_goals try (rw [afterFilters_eq]; split_ifs <;> simp)
    all_goals split_ifs <;> try simp_all
    all_goals try (rw [afterFilters_eq]; split_ifs <;> simp)
    all_goals
      rcases ‹sp ≤ 0 ∨ |(coin.futures_price - sp) / sp * 100| ≤ cfg.maxPriceSpread›
        with hA | hA <;> linarith

/-- The evaluation loop of `evaluate_batch` adds exactly the number of
records to `coins_scanned` — it never resets it. -/
lemma evalLoop_scanned (cfg : Config) (lookup : String → Option ℚ) (now : ℚ)
    (data : List (String × CoinData)) :
    ∀ s : ScannerState,
      (evalLoop cfg lookup now data s).2.coins_scanned = s.coins_scanned + data.length := by
  induction data with
  | nil => intro s; rfl
  | cons hd rest ih =>
    intro s
    obtain ⟨sym, coin⟩ := hd
    simp only [evalLoop]
    rw [ih, (evalOne_state_shape cfg coin (lookup coin.base.toUpper) now s).1]
    simp only [List.length_cons]
    omega

/-- C4 amended: the scanner keeps three cumulative diagnostic counters, not
per-stage rejection counters.  Each evaluation increments `coins_scanned`;
an accepted record additionally increments `coins_passed_filter` and
`signals_generated`; a rejected record leaves `signals_generated` alone;
and `coins_passed_filter` moves exactly when the record passed the four
filter stages — so among rejections, exactly the cooldown-stage ones move
it, and capitalization/OI/funding/spread-stage rejections leave it
unchanged.  A batch evaluation — one scan cycle — accumulates
`coins_scanned` by the batch size; no counter is ever reset. -/
theorem c4_counters :
    (∀ (cfg : Config) (coin : CoinData) (mcap : Option ℚ) (now : ℚ) (s : ScannerState),
      ((evalOne cfg coin mcap now s).2.coins_scanned = s.coins_scanned + 1) ∧
      ((evalOne cfg coin mcap now s).1.isSome = true →
        (evalOne cfg coin mcap now s).2.coins_passed_filter = s.coins_passed_filter + 1 ∧
        (evalOne cfg coin mcap now s).2.signals_generated = s.signals_generated + 1) ∧
      ((evalOne cfg coin mcap now s).1 = none →
        (evalOne cfg coin mcap now s).2.signals_generated = s.signals_generated) ∧
      ((evalOne cfg coin mcap now s).2.coins_passed_filter
        = s.coins_passed_filter + (if passesFilters cfg coin mcap = true then 1 else 0))) ∧
    (∀ (cfg : Config) (data : List (String × CoinData)) (lookup : String → Option ℚ)
        (now : ℚ) (s : ScannerState),
      (evaluateBatch cfg data lookup now s).2.coins_scanned = s.coins_scanned + data.length) :=
  ⟨fun cfg coin mcap now s =>
    ⟨(evalOne_state_shape cfg coin mcap now s).1,
     (evalOne_state_shape cfg coin mcap now s).2.1,
     fun h => ((evalOne_state_shape cfg coin mcap now s).2.2 h).1,
     evalOne_passed_filter cfg coin mcap now s⟩,
   fun cfg data lookup now s => by
    simp only [evaluateBatch]
    exact evalLoop_scanned cfg lookup now data s⟩

/-- C4 counterexample: the counters are not reset at the start of a cycle.
Two consecutive single-record batch evaluations (two scan cycles) leave
`coins_scanned = 2`; were the counters reset at the start of each cycle,
the value after the second cycle would be 1. -/
theorem c4_counterexample :
    (evaluateBatch defaultConfig [("AAAUSDT", coinW)] (fun _ => none) 1800
      (evaluateBatch defaultConfig [("AAAUSDT", coinW)] (fun _ => none) 1800
        initState).2).2.coins_scanned = 2 := by
  simp [evaluateBatch, evalLoop, evalOne, initState]

/-- C4 witness: the per-call counter facts at a concrete accepted
evaluation, the exact `coins_passed_filter` characterization at both a
record that passes the filters and a record rejected at the capitalization
stage (which leaves the counter untouched), and the batch accumulation at a
concrete one-record batch. -/
theorem c4_witness :
    ((evalOne cfg5 coinW (some 5000000) 1800 initState).2.coins_passed_filter =
      initState.coins_passed_filter + 1 ∧
     (evalOne cfg5 coinW (some 5000000) 1800 initState).2.signals_generated =
      initState.signals_generated + 1) ∧
    (evalOne cfg5 coinW (some 5000000) 1800 initState).2.coins_passed_filter
      = initState.coins_passed_filter +
        (if passesFilters cfg5 coinW (some 5000000) = true then 1 else 0) ∧
    passesFilters defaultConfig coinW (some 5000000) = false ∧
    (evalOne defaultConfig coinW (some 5000000) 1800 initState).2.coins_passed_filter
      = initState.coins_passed_filter ∧
    (evaluateBatch defaultConfig [("AAAUSDT", coinW)] (fun _ => none) 1800
      initState).2.coins_scanned = initState.coins_scanned + 1 := by
  have hfalse : passesFilters defaultConfig coinW (some 5000000) = false := by
    norm_num [passesFilters, defaultConfig]
  refine ⟨⟨((c4_counters.1 cfg5 coinW (some 5000000) 1800 initState).2.1
      (by rw [evalOne_coinW_fst]; rfl)).1,
    ((c4_counters.1 cfg5 coinW (some 5000000) 1800 initState).2.1
      (by rw [evalOne_coinW_fst]; rfl)).2⟩,
    (c4_counters.1 cfg5 coinW (some 5000000) 1800 initState).2.2.2,
    hfalse, ?_,
    c4_counters.2 defaultConfig [("AAAUSDT", coinW)] (fun _ => none) 1800 initState⟩
  have h := (c4_counters.1 defaultConfig coinW (some 5000000) 1800 initState).2.2.2
  rw [hfalse] at h
  simpa using h

/-! ## C5: the scorer is guarded by the capitalization filter -/

/-- C5: whenever `_evaluate_one` reaches `_calculate_score` (equivalently,
emits a signal — the cooldown rejection happens before scoring), the
capitalization filter has already ensured `0 < mcap ≤ MAX_MARKET_CAP`, so
`MAX_MARKET_CAP > 0` and the division `mcap / max_cap` in the
capitalization sub-score is well-defined; consequently under the shipped
default `MAX_MARKET_CAP = 0` no record ever passes the capitalization
stage and `evaluate_batch` returns an empty signal list on every input. -/
theorem c5_scorer_guard :
    (∀ (cfg : Config) (coin : CoinData) (mcap : Option ℚ) (now : ℚ) (s : ScannerState),
      ((evalOne cfg coin mcap now s).1).isSome = true →
      ∃ m, mcap = some m ∧ 0 < m ∧ m ≤ cfg.maxMarketCap ∧ 0 < cfg.maxMarketCap) ∧
    (∀ (cfg : Config) (data : List (String × CoinData)) (lookup : String → Option ℚ)
        (now : ℚ) (s : ScannerState), cfg.maxMarketCap = 0 →
      (evaluateBatch cfg data lookup now s).1 = []) := by
  constructor
  · intro cfg coin mcap now s h
    obtain ⟨sig, hsig⟩ := Option.isSome_iff_exists.mp h
    obtain ⟨m, ps, hmeq, hm0, hmle, -⟩ := evalOne_fst_some hsig
    exact ⟨m, hmeq, hm0, hmle, lt_of_lt_of_le hm0 hmle⟩
  · intro cfg data lookup now s hmax
    have hnone : ∀ (coin : CoinData) (mcap : Option ℚ) (now' : ℚ) (s' : ScannerState),
        (evalOne cfg coin mcap now' s').1 = none := by
      intro coin mcap now' s'
      rcases hres : (evalOne cfg coin mcap now' s').1 with _ | sig
      · rfl
      · obtain ⟨m, ps, hmeq, hm0, hmle, -⟩ := evalOne_fst_some hres
        rw [hmax] at hmle
        linarith
    simp only [evaluateBatch]
    suffices hx : ∀ (d : List (String × CoinData)) (s' : ScannerState),
        (evalLoop cfg lookup now d s').1 = [] by
      rw [hx data s]
      rfl
    intro d
    induction d with
    | nil => intro s'; rfl
    | cons hd rest ih =>
      intro s'
      obtain ⟨sym, coin⟩ := hd
      simp only [evalLoop, hnone]
      exact ih _

/-- C5 witness: the guard instantiated at the accepted concrete evaluation
under `cfg5`, and the empty-batch consequence instantiated under the
shipped default configuration. -/
theorem c5_witness :
    (∃ m, (some (5000000 : ℚ)) = some m ∧ 0 < m ∧ m ≤ cfg5.maxMarketCap ∧
      0 < cfg5.maxMarketCap) ∧
    (evaluateBatch defaultConfig [("AAAUSDT", coinW)] (fun _ => some 5000000) 1800
      initState).1 = [] :=
  ⟨c5_scorer_guard.1 cfg5 coinW (some 5000000) 1800 initState
      (by rw [evalOne_coinW_fst]; rfl),
   c5_scorer_guard.2 defaultConfig [("AAAUSDT", coinW)] (fun _ => some 5000000) 1800
      initState rfl⟩

/-! ## C6: the total score -/

/-- C6: for every record that reaches the scorer (under a positive OI
threshold and a positive spread bound, as configured), the final score is
the floor of the sum of the four stored sub-scores, each sub-score lies in
`[0, 25]`, and the score lies in `[0, 100]`. -/
theorem c6_score_bounds (cfg : Config) (coin : CoinData) (mcap : Option ℚ)
    (now : ℚ) (s : ScannerState) (sig : Signal)
    (hθ : 0 < cfg.oiMcapThreshold) (hsp : 0 < cfg.maxPriceSpread)
    (h : (evalOne cfg coin mcap now s).1 = some sig) :
    sig.score = ⌊sig.factor_scores.oi + sig.factor_scores.funding +
      sig.factor_scores.spread + sig.factor_scores.mcap⌋ ∧
    (0 ≤ sig.factor_scores.oi ∧ sig.factor_scores.oi ≤ 25) ∧
    (0 ≤ sig.factor_scores.funding ∧ sig.factor_scores.funding ≤ 25) ∧
    (0 ≤ sig.factor_scores.spread ∧ sig.factor_scores.spread ≤ 25) ∧
    (0 ≤ sig.factor_scores.mcap ∧ sig.factor_scores.mcap ≤ 25) ∧
    0 ≤ sig.score ∧ sig.score ≤ 100 := by
  obtain ⟨m, ps, hmeq, hm0, hmle, hoi, hf, hps, hspn, hsig⟩ := evalOne_fst_some h
  subst hsig
  simp only [emittedSignal, calcScore]
  have hA0 : 0 ≤ oiScoreR cfg (coin.oi_usd / m * 100) := oiScoreR_nonneg cfg _ hθ hoi
  have hA1 : oiScoreR cfg (coin.oi_usd / m * 100) ≤ 25 := oiScoreR_le_25 cfg _
  have hB0 : (0 : ℝ) ≤ ((fundScore coin.funding_rate : ℚ) : ℝ) := by
    exact_mod_cast fundScore_nonneg coin.funding_rate
  have hB1 : ((fundScore coin.funding_rate : ℚ) : ℝ) ≤ 25 := by
    exact_mod_cast fundScore_le_25 coin.funding_rate
  have hC0 : 0 ≤ spreadScoreR cfg ps := spreadScoreR_nonneg cfg ps
  have hC1 : spreadScoreR cfg ps ≤ 25 := by
    refine spreadScoreR_le_25 cfg ps hsp ?_
    intro q hq
    rcases hps with h0 | ⟨q', hq', hle⟩
    · rw [h0] at hq
      exact Option.noConfusion hq
    · rw [hq'] at hq
      rwa [← Option.some_inj.mp hq]
  have hD0 : 0 ≤ mcapScoreR cfg m := mcapScoreR_nonneg cfg m
  have hD1 : mcapScoreR cfg m ≤ 25 := mcapScoreR_le_25 cfg m hm0 hmle
  have hminB : min (25 : ℝ) ((fundScore coin.funding_rate : ℚ) : ℝ) =
      ((fundScore coin.funding_rate : ℚ) : ℝ) := min_eq_right hB1
  have hminD : min (25 : ℝ) (mcapScoreR cfg m) = mcapScoreR cfg m := min_eq_right hD1
  rw [hminB, hminD]
  set A := oiScoreR cfg (coin.oi_usd / m * 100)
  set B := ((fundScore coin.funding_rate : ℚ) : ℝ)
  set C := spreadScoreR cfg ps
  set D := mcapScoreR cfg m
  have htot0 : (0 : ℝ) ≤ A + B + C + D := by linarith
  have htot1 : A + B + C + D ≤ 100 := by linarith
  have hpt : pyTrunc (A + B + C + D) = ⌊A + B + C + D⌋ := by
    simp only [pyTrunc, if_pos htot0]
  have hfl0 : (0 : ℤ) ≤ ⌊A + B + C + D⌋ := Int.le_floor.mpr (by exact_mod_cast htot0)
  have hfl1 : ⌊A + B + C + D⌋ ≤ 100 := by
    have := Int.floor_mono htot1
    simpa using this
  rw [hpt, min_eq_right hfl1, max_eq_right hfl0]
  exact ⟨rfl, ⟨hA0, hA1⟩, ⟨hB0, hB1⟩, ⟨hC0, hC1⟩, ⟨hD0, hD1⟩, hfl0, hfl1⟩

/-- C6 witness: the score identities and bounds at the concrete accepted
evaluation of `coinW` under `cfg5`. -/
theorem c6_witness :
    sigW.score = ⌊sigW.factor_scores.oi + sigW.factor_scores.funding +
      sigW.factor_scores.spread + sigW.factor_scores.mcap⌋ ∧
    (0 ≤ sigW.factor_scores.oi ∧ sigW.factor_scores.oi ≤ 25) ∧
    (0 ≤ sigW.factor_scores.funding ∧ sigW.factor_scores.funding ≤ 25) ∧
    (0 ≤ sigW.factor_scores.spread ∧ sigW.factor_scores.spread ≤ 25) ∧
    (0 ≤ sigW.factor_scores.mcap ∧ sigW.factor_scores.mcap ≤ 25) ∧
    0 ≤ sigW.score ∧ sigW.score ≤ 100 :=
  c6_score_bounds cfg5 coinW (some 5000000) 1800 initState sigW
    (by norm_num [cfg5, defaultConfig]) (by norm_num [cfg5, defaultConfig])
    evalOne_coinW_fst

/-! ## C8: the OI sub-score -/

/-- C8: for every record that reaches the scorer, the stored OI sub-score
is `min(25, 12·log2(1 + oi_mcap_ratio / threshold))`; a record whose ratio
equals the (positive) threshold scores exactly 12. -/
theorem c8_oi_subscore (cfg : Config) (coin : CoinData) (mcap : Option ℚ)
    (now : ℚ) (s : ScannerState) (sig : Signal)
    (hθ : 0 < cfg.oiMcapThreshold)
    (h : (evalOne cfg coin mcap now s).1 = some sig) :
    sig.factor_scores.oi =
      min 25 (12 * Real.logb 2 (1 + (sig.oi_mcap_pct : ℝ) / (cfg.oiMcapThreshold : ℝ))) ∧
    (sig.oi_mcap_pct = cfg.oiMcapThreshold → sig.factor_scores.oi = 12) := by
  obtain ⟨m, ps, hmeq, hm0, hmle, hoi, hf, hps, hspn, hsig⟩ := evalOne_fst_some h
  subst hsig
  simp only [emittedSignal, calcScore, oiScoreR]
  constructor
  · trivial
  · intro hpct
    rw [hpct]
    have hθ0 : ((cfg.oiMcapThreshold : ℚ) : ℝ) ≠ 0 := by
      exact_mod_cast hθ.ne'
    rw [div_self hθ0]
    rw [show (1 : ℝ) + 1 = 2 by norm_num, Real.logb_self_eq_one (by norm_num)]
    norm_num

/-- C8 witness: the concrete accepted evaluation has its OI ratio exactly
at the threshold (`1250000 / 5000000 × 100 = 25`), so its OI sub-score is
exactly 12. -/
theorem c8_witness :
    sigW.factor_scores.oi =
      min 25 (12 * Real.logb 2 (1 + (sigW.oi_mcap_pct : ℝ) / (cfg5.oiMcapThreshold : ℝ))) ∧
    (sigW.oi_mcap_pct = cfg5.oiMcapThreshold → sigW.factor_scores.oi = 12) ∧
    sigW.factor_scores.oi = 12 := by
  have H := c8_oi_subscore cfg5 coinW (some 5000000) 1800 initState sigW
    (by norm_num [cfg5, defaultConfig]) evalOne_coinW_fst
  refine ⟨H.1, H.2, H.2 ?_⟩
  simp only [sigW, emittedSignal, coinW, cfg5, defaultConfig]
  norm_num

/-! ## C9: the spread stage and sub-score -/

/-- C9: an accepted record with no known spot price has its price-fairness
stage skipped (it carries no spread, and is accepted nevertheless) and its
spread sub-score is the fixed neutral 10; an accepted record with a known
spread has sub-score `max(0, 25·(1 − (|spread|/max_spread)^0.7))`, which is
exactly 0 when the spread sits exactly at the configured bound. -/
theorem c9_spread_policy (cfg : Config) (coin : CoinData) (mcap : Option ℚ)
    (now : ℚ) (s : ScannerState) (sig : Signal)
    (hsp : 0 < cfg.maxPriceSpread)
    (h : (evalOne cfg coin mcap now s).1 = some sig) :
    (coin.spot_price = none → sig.price_spread = none ∧ sig.factor_scores.spread = 10) ∧
    (∀ q, sig.price_spread = some q →
      sig.factor_scores.spread =
        max 0 (25 * (1 - ((|q| : ℝ) / (cfg.maxPriceSpread : ℝ)) ^ (0.7 : ℝ))) ∧
      (|q| = cfg.maxPriceSpread → sig.factor_scores.spread = 0)) := by
  obtain ⟨m, ps, hmeq, hm0, hmle, hoi, hf, hps, hspn, hsig⟩ := evalOne_fst_some h
  subst hsig
  simp only [emittedSignal, calcScore]
  constructor
  · intro hnone
    rw [hspn hnone]
    exact ⟨rfl, rfl⟩
  · intro q hq
    subst hq
    constructor
    · simp only [spreadScoreR]
    · intro habs
      simp only [spreadScoreR]
      have hcast : |((q : ℚ) : ℝ)| = ((cfg.maxPriceSpread : ℚ) : ℝ) := by
        rw [← Rat.cast_abs, habs]
      rw [hcast,
        div_self (by exact_mod_cast hsp.ne' : ((cfg.maxPriceSpread : ℚ) : ℝ) ≠ 0),
        Real.one_rpow]
      norm_num

/-- C9 witness: the concrete accepted evaluation of `coinW` (which has no
spot price) carries no spread and has spread sub-score exactly 10 — the
record is accepted even though the spread stage was skipped. -/
theorem c9_witness :
    (coinW.spot_price = none → sigW.price_spread = none ∧ sigW.factor_scores.spread = 10) ∧
    (∀ q, sigW.price_spread = some q →
      sigW.factor_scores.spread =
        max 0 (25 * (1 - ((|q| : ℝ) / (cfg5.maxPriceSpread : ℝ)) ^ (0.7 : ℝ))) ∧
      (|q| = cfg5.maxPriceSpread → sigW.factor_scores.spread = 0)) ∧
    sigW.factor_scores.spread = 10 := by
  have H := c9_spread_policy cfg5 coinW (some 5000000) 1800 initState sigW
    (by norm_num [cfg5, defaultConfig]) evalOne_coinW_fst
  exact ⟨H.1, H.2, (H.1 (by simp [coinW])).2⟩

/-! ## C7: cooldown behaviour across two evaluations -/

/-- C7 amended: starting from a state with no cooldown stamp for the pair
(the dict default is 0, so the first evaluation also needs
`signalCooldown ≤ t1`), a record passing all four filter stages yields a
signal at time `t1` and is rejected at the cooldown check at any `t2` with
`t2 - t1 < signalCooldown`; the second call leaves `signals_generated` and
the cooldown stamp unchanged but does increment both `coins_scanned` and
`coins_passed_filter` (there are no per-stage rejection counters to
increment instead). -/
theorem c7_cooldown_behaviour (cfg : Config) (coin : CoinData) (m t1 t2 : ℚ)
    (s : ScannerState)
    (hkey : s.cooldowns (cooldownKey coin) = 0)
    (ht1 : cfg.signalCooldown ≤ t1)
    (ht2 : t2 - t1 < cfg.signalCooldown)
    (hm : 0 < m) (hmax : m ≤ cfg.maxMarketCap)
    (hoi : cfg.oiMcapThreshold ≤ coin.oi_usd / m * 100)
    (hf : coin.funding_rate ≤ cfg.maxFundingRate)
    (hsp : ∀ sp, coin.spot_price = some sp → 0 < sp →
      |(coin.futures_price - sp) / sp * 100| ≤ cfg.maxPriceSpread) :
    ((evalOne cfg coin (some m) t1 s).1).isSome = true ∧
    (evalOne cfg coin (some m) t2 (evalOne cfg coin (some m) t1 s).2).1 = none ∧
    (evalOne cfg coin (some m) t2 (evalOne cfg coin (some m) t1 s).2).2.signals_generated
      = (evalOne cfg coin (some m) t1 s).2.signals_generated ∧
    (evalOne cfg coin (some m) t2 (evalOne cfg coin (some m) t1 s).2).2.cooldowns
      (cooldownKey coin) = t1 ∧
    (evalOne cfg coin (some m) t1 s).2.cooldowns (cooldownKey coin) = t1 ∧
    (evalOne cfg coin (some m) t2 (evalOne cfg coin (some m) t1 s).2).2.coins_scanned
      = (evalOne cfg coin (some m) t1 s).2.coins_scanned + 1 ∧
    (evalOne cfg coin (some m) t2 (evalOne cfg coin (some m) t1 s).2).2.coins_passed_filter
      = (evalOne cfg coin (some m) t1 s).2.coins_passed_filter + 1 := by
  have h1 := evalOne_pass cfg coin m t1 s (not_le.mpr hm) (not_lt.mpr hmax)
    (not_lt.mpr hoi) (not_lt.mpr hf)
    (fun sp hsp' hp => not_lt.mpr (hsp sp hsp' hp))
    (by rw [hkey, sub_zero]; exact not_lt.mpr ht1)
  rw [h1]
  dsimp only
  have hupd : Function.update s.cooldowns (cooldownKey coin) t1 (cooldownKey coin) = t1 :=
    Function.update_same _ _ _
  have h2 := evalOne_cooldown_reject cfg coin m t2
    { cooldowns := Function.update s.cooldowns (cooldownKey coin) t1
      coins_scanned := s.coins_scanned + 1
      coins_passed_filter := s.coins_passed_filter + 1
      signals_generated := s.signals_generated + 1 }
    (not_le.mpr hm) (not_lt.mpr hmax) (not_lt.mpr hoi) (not_lt.mpr hf)
    (fun sp hsp' hp => not_lt.mpr (hsp sp hsp' hp))
    (by dsimp only; rw [hupd]; exact ht2)
  rw [h2]
  exact ⟨rfl, rfl, rfl, hupd, hupd, rfl, rfl⟩

/-- C7 witness: the two-evaluation scenario at concrete inputs — first call
at `t1 = 1800` emits, second call at `t2 = 1900` (only 100 seconds later,
inside the 1800-second window) is rejected with the cooldown stamp and
`signals_generated` unchanged. -/
theorem c7_witness :
    ((evalOne cfg5 coinW (some 5000000) 1800 initState).1).isSome = true ∧
    (evalOne cfg5 coinW (some 5000000) 1900
      (evalOne cfg5 coinW (some 5000000) 1800 initState).2).1 = none ∧
    (evalOne cfg5 coinW (some 5000000) 1900
      (evalOne cfg5 coinW (some 5000000) 1800 initState).2).2.signals_generated
      = (evalOne cfg5 coinW (some 5000000) 1800 initState).2.signals_generated ∧
    (evalOne cfg5 coinW (some 5000000) 1900
      (evalOne cfg5 coinW (some 5000000) 1800 initState).2).2.cooldowns
      (cooldownKey coinW) = 1800 ∧
    (evalOne cfg5 coinW (some 5000000) 1800 initState).2.cooldowns
      (cooldownKey coinW) = 1800 ∧
    (evalOne cfg5 coinW (some 5000000) 1900
      (evalOne cfg5 coinW (some 5000000) 1800 initState).2).2.coins_scanned
      = (evalOne cfg5 coinW (some 5000000) 1800 initState).2.coins_scanned + 1 ∧
    (evalOne cfg5 coinW (some 5000000) 1900
      (evalOne cfg5 coinW (some 5000000) 1800 initState).2).2.coins_passed_filter
      = (evalOne cfg5 coinW (some 5000000) 1800 initState).2.coins_passed_filter + 1 :=
  c7_cooldown_behaviour cfg5 coinW 5000000 1800 1900 initState rfl
    (by norm_num [cfg5, defaultConfig])
    (by norm_num [cfg5, defaultConfig])
    (by norm_num)
    (by norm_num [cfg5, defaultConfig])
    (by norm_num [coinW, cfg5, defaultConfig])
    (by norm_num [coinW, cfg5, defaultConfig])
    (by intro sp hsp' _; simp [coinW] at hsp')

/-- C7 counterexample: the claim asserts the second (cooldown-rejected)
evaluation changes no other diagnostic counter, but the second call moves
the diagnostic counter `coins_passed_filter` from 1 to 2 (and
`coins_scanned` from 1 to 2): the cooldown check runs after
`coins_passed_filter` is incremented (`scanner.py` line 131 precedes the
check at line 136). -/
theorem c7_counterexample :
    ((evalOne cfg5 coinW (some 5000000) 1800 initState).1).isSome = true ∧
    (evalOne cfg5 coinW (some 5000000) 1900
      (evalOne cfg5 coinW (some 5000000) 1800 initState).2).1 = none ∧
    (evalOne cfg5 coinW (some 5000000) 1800 initState).2.coins_passed_filter = 1 ∧
    (evalOne cfg5 coinW (some 5000000) 1900
      (evalOne cfg5 coinW (some 5000000) 1800 initState).2).2.coins_passed_filter = 2 := by
  rw [evalOne_coinW_pass]
  dsimp only
  have hupd : Function.update initState.cooldowns (cooldownKey coinW) 1800
      (cooldownKey coinW) = 1800 := Function.update_same _ _ _
  have h2 := evalOne_cooldown_reject cfg5 coinW 5000000 1900
    { cooldowns := Function.update initState.cooldowns (cooldownKey coinW) 1800
      coins_scanned := 1
      coins_passed_filter := 1
      signals_generated := 1 }
    (by norm_num)
    (by norm_num [cfg5, defaultConfig])
    (by norm_num [coinW, cfg5, defaultConfig])
    (by norm_num [coinW, cfg5, defaultConfig])
    (by intro sp hsp' _; simp [coinW] at hsp')
    (by dsimp only; rw [hupd]; norm_num [cfg5, defaultConfig])
  rw [h2]
  exact ⟨rfl, rfl, rfl, rfl⟩

end OIScanner
